import Mathlib

/-!
Shallow embedding of the ai-caption-generator repository: the five-stage
caption pipeline of src/app.py (audio extraction, Whisper transcription,
SRT subtitle formatting, subtitle burning, result presentation) and the
dot-product micro-benchmarks of src/simple.py and src/low_lat.py, together
with theorems settling the frozen claims of the specification.

Times are modelled as rationals (Python floats are a subset of the
rationals and the code performs no float arithmetic on them beyond the
conversion to datetime.timedelta, modelled below as rounding to integer
microseconds).  The srt library and numpy are third-party dependencies
whose sources are not part of this repository; definitions that model them
carry a doc comment starting with "Modelled from the spec:".
-/

namespace CaptionGen

/-! ### Python string primitives -/

/-- Whitespace set of Python's str.split() and str.strip() (ASCII part). -/
def isPySpace (c : Char) : Bool :=
  c = ' ' || c = '\t' || c = '\n' || c = '\r' || c = '\x0b' || c = '\x0c'

/-- Python str.strip() at character-list level: drop leading and trailing
whitespace. -/
def stripChars (cs : List Char) : List Char :=
  ((cs.dropWhile isPySpace).reverse.dropWhile isPySpace).reverse

/-- Python str.strip(), as used by segment['text'].strip() in
generate_srt_from_transcription (src/app.py line 100). -/
def pyStrip (s : String) : String := String.mk (stripChars s.data)

/-- Longest prefix of non-whitespace characters, paired with the rest. -/
def spanNonWs : List Char → List Char × List Char
  | [] => ([], [])
  | c :: cs =>
    if isPySpace c then ([], c :: cs)
    else
      let p := spanNonWs cs
      (c :: p.1, p.2)

/-- Fuel-driven tokenizer for Python str.split() with no arguments: skip
whitespace, take a maximal non-whitespace run, repeat.  The fuel only
bounds the number of tokens; it is instantiated with the string length
plus one. -/
def wsTokensAux (fuel : ℕ) : List Char → List (List Char) :=
  Nat.rec (fun _ => [])
    (fun _ ih cs =>
      match spanNonWs (cs.dropWhile isPySpace) with
      | ([], _) => []
      | (tok, rest) => tok :: ih rest)
    fuel

/-- Python str.split() with no arguments: the list of whitespace-delimited
tokens, as used by transcription['text'].split() (src/app.py line 414) and
model_option.split() (line 416). -/
def pySplitWs (s : String) : List String :=
  (wsTokensAux (s.data.length + 1) s.data).map String.mk

/-- Single-scan count of whitespace-delimited tokens; the Boolean flag
records whether the previous character was inside a token.  This is the
specification-side description "count of whitespace-delimited tokens",
proved equal to the length of pySplitWs. -/
def countTokensScan : List Char → Bool → ℕ
  | [], _ => 0
  | c :: cs, inWord =>
    if isPySpace c then countTokensScan cs false
    else (if inWord then 0 else 1) + countTokensScan cs true

/-! ### Data model -/

/-- One raw segment of a Whisper transcription result: a dictionary that
may or may not carry the keys 'id', 'start', 'end', 'text'.  The code
reads 'start', 'end' and 'text' (a missing key raises) and never reads the
upstream 'id'. -/
structure RawSegment where
  seg_id : Option ℤ
  seg_start : Option ℚ
  seg_end : Option ℚ
  seg_text : Option String
deriving DecidableEq

/-- A Whisper transcription result: full text plus the segment sequence
(transcription['text'] and transcription.get('segments', [])). -/
structure Transcription where
  text : String
  segments : List RawSegment
deriving DecidableEq

/-- A segment carrying all three fields the formatter reads. -/
def RawSegment.wellFormed (seg : RawSegment) : Prop :=
  seg.seg_start.isSome ∧ seg.seg_end.isSome ∧ seg.seg_text.isSome

instance (seg : RawSegment) : Decidable seg.wellFormed := by
  unfold RawSegment.wellFormed; infer_instance

/-- The 'start' value of a segment (default 0 for a missing key; only used
under a wellFormed hypothesis). -/
def RawSegment.startQ (seg : RawSegment) : ℚ := seg.seg_start.getD 0

/-- The 'end' value of a segment (default 0 for a missing key; only used
under a wellFormed hypothesis). -/
def RawSegment.endQ (seg : RawSegment) : ℚ := seg.seg_end.getD 0

/-- The 'text' value of a segment (default "" for a missing key; only used
under a wellFormed hypothesis). -/
def RawSegment.textD (seg : RawSegment) : String := seg.seg_text.getD ""

/-- Modelled from the spec: datetime.timedelta(seconds=q) stores a whole
number of microseconds; q seconds round to the nearest microsecond.  It is
computed executably on the numerator and denominator as
⌊q * 10^6 + 1/2⌋ = (2 * 10^6 * num + den) / (2 * den) and proved equal to
round (q * 10^6) below.  (Python rounds half-microsecond ties to even; no
claim below exercises a tie.) -/
def tdMicroseconds (q : ℚ) : ℤ :=
  (2000000 * q.num + (q.den : ℤ)) / (2 * (q.den : ℤ))

/-- An integer as a rational number, as an executable structure literal
(used for concrete segment times in witnesses); proved equal to the cast
below. -/
def qInt (n : ℤ) : ℚ := ⟨n, 1, one_ne_zero, Nat.coprime_one_right _⟩

/-- An srt.Subtitle record as constructed by the formatter: 1-based index,
start and end as timedeltas (integer microseconds), content string. -/
structure Subtitle where
  index : ℕ
  startUs : ℤ
  endUs : ℤ
  content : String
deriving DecidableEq

/-! ### Subtitle Formatter (generate_srt_from_transcription, src/app.py 91-106) -/

/-- Body of one loop iteration of generate_srt_from_transcription: build
srt.Subtitle(index=i+1, start=timedelta(seconds=segment['start']),
end=timedelta(seconds=segment['end']), content=segment['text'].strip());
a missing key raises (modelled as none). -/
def subtitleOfSegment (i : ℕ) (seg : RawSegment) : Option Subtitle :=
  match seg.seg_start, seg.seg_end, seg.seg_text with
  | some s, some e, some txt =>
    some ⟨i + 1, tdMicroseconds s, tdMicroseconds e, pyStrip txt⟩
  | _, _, _ => none

/-- The for-loop of generate_srt_from_transcription over
enumerate(transcription.get('segments', [])) starting at index i: all
subtitles are built, or the first raised exception aborts the whole
function (the partial list is discarded by the except branch). -/
def buildSubtitlesFrom (i : ℕ) : List RawSegment → Option (List Subtitle)
  | [] => some []
  | seg :: rest =>
    match subtitleOfSegment i seg with
    | some sub => (buildSubtitlesFrom (i + 1) rest).map (fun subs => sub :: subs)
    | none => none

/-- The subtitles list built by generate_srt_from_transcription. -/
def buildSubtitles (segs : List RawSegment) : Option (List Subtitle) :=
  buildSubtitlesFrom 0 segs

/-- Decimal digit character for n % 10. -/
def digitChar (n : ℕ) : Char := Char.ofNat (48 + n % 10)

/-- Fuel-driven decimal rendering of a natural number (most significant
digit first).  The fuel only bounds the number of digits; it is
instantiated with n + 1. -/
def natCharsAux (fuel : ℕ) : ℕ → List Char :=
  Nat.rec (fun _ => [])
    (fun _ ih n =>
      if n < 10 then [digitChar n] else ih (n / 10) ++ [digitChar (n % 10)])
    fuel

/-- Decimal rendering of a natural number. -/
def natChars (n : ℕ) : List Char := natCharsAux (n + 1) n

/-- Left-pad a digit run with '0' to width w. -/
def padZeros (w : ℕ) (cs : List Char) : List Char :=
  List.replicate (w - cs.length) '0' ++ cs

/-- Modelled from the spec: the srt library renders a nonnegative timedelta
of us microseconds in the standard subtitle timestamp convention
HH:MM:SS,mmm — zero-padded hours (unbounded above), minutes, seconds and
truncated milliseconds. -/
def srtTimestamp (us : ℕ) : List Char :=
  padZeros 2 (natChars (us / 3600000000)) ++ [':'] ++
  padZeros 2 (natChars (us / 60000000 % 60)) ++ [':'] ++
  padZeros 2 (natChars (us / 1000000 % 60)) ++ [','] ++
  padZeros 3 (natChars (us / 1000 % 1000))

/-- Modelled from the spec: timestamp rendering on signed microseconds.
The spec constrains times to nonnegative seconds; a negative timedelta is
rendered with a sign here (Python's own rendering of negative timedeltas
differs, and no claim exercises it). -/
def srtTimestampZ (us : ℤ) : List Char :=
  if us < 0 then '-' :: srtTimestamp us.natAbs else srtTimestamp us.toNat

/-- Modelled from the spec: one serialized subtitle entry — index line,
timestamp line "start --> end", text block, blank line. -/
def subtitleBlock (s : Subtitle) : List Char :=
  natChars s.index ++ ['\n'] ++
  srtTimestampZ s.startUs ++ [' ', '-', '-', '>', ' '] ++
  srtTimestampZ s.endUs ++ ['\n'] ++
  s.content.data ++ ['\n', '\n']

/-- Modelled from the spec: srt.compose — the concatenation of the
serialized entries, one per subtitle, in order. -/
def composeChars (subs : List Subtitle) : List Char :=
  (subs.map subtitleBlock).flatten

/-- Modelled from the spec: srt.compose as a string. -/
def compose (subs : List Subtitle) : String := String.mk (composeChars subs)

/-! ### The srt parser (srt.parse, used at src/app.py lines 112, 287, 304) -/

/-- A parsed subtitle entry: index, start and end (whole milliseconds, as
reconstructed from the four timestamp fields), content. -/
structure ParsedSubtitle where
  index : ℕ
  startMs : ℕ
  endMs : ℕ
  content : String
deriving DecidableEq

/-- Start time of a parsed entry in seconds. -/
def ParsedSubtitle.startSeconds (p : ParsedSubtitle) : ℚ := (p.startMs : ℚ) / 1000

/-- End time of a parsed entry in seconds. -/
def ParsedSubtitle.endSeconds (p : ParsedSubtitle) : ℚ := (p.endMs : ℚ) / 1000

/-- Longest prefix of decimal digits, paired with the rest. -/
def spanDigits : List Char → List Char × List Char
  | [] => ([], [])
  | c :: cs =>
    if c.isDigit then
      let p := spanDigits cs
      (c :: p.1, p.2)
    else ([], c :: cs)

/-- Value of a decimal digit run (most significant first). -/
def digitsVal (cs : List Char) : ℕ :=
  cs.foldl (fun acc c => acc * 10 + (c.toNat - 48)) 0

/-- Expect one given character. -/
def expectChar (c : Char) : List Char → Option (List Char)
  | x :: rest => if x = c then some rest else none
  | [] => none

/-- Expect a given character sequence. -/
def expectSeq : List Char → List Char → Option (List Char)
  | [], cs => some cs
  | p :: ps, c :: cs => if c = p then expectSeq ps cs else none
  | _ :: _, [] => none

/-- Parse a nonempty decimal digit run. -/
def parseNatTok (cs : List Char) : Option (ℕ × List Char) :=
  match spanDigits cs with
  | ([], _) => none
  | (ds, rest) => some (digitsVal ds, rest)

/-- Modelled from the spec: parse a timestamp H:MM:SS,mmm into total
milliseconds (the srt library rebuilds a timedelta from the four fields). -/
def parseTimestampTok (cs : List Char) : Option (ℕ × List Char) :=
  match parseNatTok cs with
  | none => none
  | some (h, cs1) =>
    match expectChar ':' cs1 with
    | none => none
    | some cs2 =>
      match parseNatTok cs2 with
      | none => none
      | some (m, cs3) =>
        match expectChar ':' cs3 with
        | none => none
        | some cs4 =>
          match parseNatTok cs4 with
          | none => none
          | some (s, cs5) =>
            match expectChar ',' cs5 with
            | none => none
            | some cs6 =>
              match parseNatTok cs6 with
              | none => none
              | some (ms, cs7) => some (((h * 60 + m) * 60 + s) * 1000 + ms, cs7)

/-- Text block: everything up to (and consuming) the next blank line. -/
def takeUntilBlank : List Char → Option (List Char × List Char)
  | [] => none
  | [_] => none
  | c :: d :: rest =>
    if c = '\n' ∧ d = '\n' then some ([], rest)
    else (takeUntilBlank (d :: rest)).map (fun p => (c :: p.1, p.2))

/-- Parse one serialized subtitle entry, returning it and the rest of the
input. -/
def parseBlockTok (cs : List Char) : Option (ParsedSubtitle × List Char) :=
  match parseNatTok cs with
  | none => none
  | some (idx, cs1) =>
    match expectChar '\n' cs1 with
    | none => none
    | some cs2 =>
      match parseTimestampTok cs2 with
      | none => none
      | some (sMs, cs3) =>
        match expectSeq [' ', '-', '-', '>', ' '] cs3 with
        | none => none
        | some cs4 =>
          match parseTimestampTok cs4 with
          | none => none
          | some (eMs, cs5) =>
            match expectChar '\n' cs5 with
            | none => none
            | some cs6 =>
              match takeUntilBlank cs6 with
              | none => none
              | some (content, cs7) =>
                some (⟨idx, sMs, eMs, String.mk content⟩, cs7)

/-- Fuel-driven entry list parser.  The fuel only bounds the number of
entries; it is instantiated with the input length plus one. -/
def parseEntriesAux (fuel : ℕ) : List Char → List ParsedSubtitle :=
  Nat.rec (fun _ => [])
    (fun _ ih cs =>
      match parseBlockTok cs with
      | some (e, rest) => e :: ih rest
      | none => [])
    fuel

/-- Modelled from the spec: srt.parse — the sequence of subtitle entries
read back from serialized subtitle text. -/
def srtParse (s : String) : List ParsedSubtitle :=
  parseEntriesAux (s.data.length + 1) s.data

/-- The subtitle record the formatter is expected to build for the
segment at position i (0-based): index i + 1, the segment's times as
timedeltas, the stripped text. -/
def expectedSubtitle (i : ℕ) (seg : RawSegment) : Subtitle :=
  ⟨i + 1, tdMicroseconds seg.startQ, tdMicroseconds seg.endQ, pyStrip seg.textD⟩

/-- The expected subtitle list for a segment sequence, starting at
position i. -/
def expectedSubtitles (i : ℕ) : List RawSegment → List Subtitle
  | [] => []
  | seg :: rest => expectedSubtitle i seg :: expectedSubtitles (i + 1) rest

/-- A subtitle whose serialization parses back exactly: nonnegative times
and no newline inside the content. -/
def GoodSub (s : Subtitle) : Prop :=
  0 ≤ s.startUs ∧ 0 ≤ s.endUs ∧ '\n' ∉ s.content.data

/-- The parsed entry corresponding to a serialized subtitle: the times
survive with millisecond truncation. -/
def parsedOf (s : Subtitle) : ParsedSubtitle :=
  ⟨s.index, s.startUs.toNat / 1000, s.endUs.toNat / 1000, s.content⟩

/-! ### Messages surfaced through the UI (st.error / st.warning / st.info /
st.success calls along the pipeline, src/app.py) -/

/-- The user-visible messages the pipeline can emit, in source order. -/
inductive Msg where
  | errorExtractingAudio
  | failedToExtract
  | audioExtracted
  | errorInTranscription
  | transcriptionFailed
  | transcriptionCompleted
  | errorGeneratingSrt
  | srtGenerated
  | subtitlesBurned
  | usingAlternativeMethod
  | videoSavedWithoutSubtitles
  | couldNotProcess
  | processingComplete
  | allCompleted
deriving DecidableEq

/-- generate_srt_from_transcription (src/app.py 91-106): build the
subtitle list and serialize it; any exception in the loop is caught,
reported with st.error, and turns the result into "". -/
def generate_srt_from_transcription (t : Transcription) : String × List Msg :=
  match buildSubtitles t.segments with
  | some subs => (compose subs, [])
  | none => ("", [Msg.errorGeneratingSrt])

/-! ### Audio Extractor (extract_audio_from_video, src/app.py 54-67) -/

/-- An opaque Python exception. -/
inductive PyExc where
  | exc
deriving DecidableEq

/-- Outcomes of the external video calls inside extract_audio_from_video:
whether VideoFileClip(video_path) succeeds, whether the clip has an audio
track, and whether write_audiofile succeeds. -/
structure VideoEnv where
  openOk : Bool
  hasAudioTrack : Bool
  writeOk : Bool
deriving DecidableEq

/-- The try-block body of extract_audio_from_video: open the video; if it
has audio, write the audio file and return True, else return False; any
failing external call raises. -/
def extractBody (env : VideoEnv) : Except PyExc Bool :=
  if env.openOk then
    if env.hasAudioTrack then
      if env.writeOk then .ok true else .error .exc
    else .ok false
  else .error .exc

/-- extract_audio_from_video: the body wrapped in try/except — any
exception is reported with st.error and mapped to False. -/
def extract_audio_from_video (env : VideoEnv) : Bool × List Msg :=
  match extractBody env with
  | .ok b => (b, [])
  | .error _ => (false, [Msg.errorExtractingAudio])

/-! ### Transcriber (transcribe_audio_whisper, src/app.py 69-89) -/

/-- A pydub AudioSegment, observed through its frame rate and channel
count. -/
structure AudioSeg where
  frameRate : ℕ
  channels : ℕ
deriving DecidableEq

/-- pydub set_frame_rate. -/
def AudioSeg.set_frame_rate (a : AudioSeg) (r : ℕ) : AudioSeg :=
  ⟨r, a.channels⟩

/-- pydub set_channels. -/
def AudioSeg.set_channels (a : AudioSeg) (c : ℕ) : AudioSeg :=
  ⟨a.frameRate, c⟩

/-- Which decode tier produced the transcript: native file-based decoding,
or the raw-sample fallback (recording the prepared audio configuration). -/
inductive DecodeUsed where
  | fileBased
  | arrayBased (prepared : AudioSeg)
deriving DecidableEq

/-- A successful transcription: the result, the name passed to
whisper.load_model, and the decode tier used. -/
structure TranscribeOk where
  result : Transcription
  modelUsed : String
  decode : DecodeUsed
deriving DecidableEq

/-- Outcomes of the external calls inside transcribe_audio_whisper:
whether whisper.load_model succeeds, whether model.transcribe(audio_path)
succeeds and its result, the audio pydub would load, and whether the
fallback resample / model.transcribe(audio_array) succeed and the fallback
result. -/
structure WhisperEnv where
  loadModelOk : Bool
  fileDecodeOk : Bool
  fileResult : Transcription
  sourceAudio : AudioSeg
  resampleOk : Bool
  arrayDecodeOk : Bool
  arrayResult : Transcription
deriving DecidableEq

/-- The try-block body of transcribe_audio_whisper: load the model (the
argument is the string literal "base", src/app.py line 73); try native
file-based decoding; on its failure fall back to pydub loading,
set_frame_rate(16000).set_channels(1), and transcribe the raw samples. -/
def transcribeBody (env : WhisperEnv) : Except PyExc TranscribeOk :=
  if env.loadModelOk then
    if env.fileDecodeOk then .ok ⟨env.fileResult, "base", DecodeUsed.fileBased⟩
    else
      if env.resampleOk then
        if env.arrayDecodeOk then
          .ok ⟨env.arrayResult, "base",
            DecodeUsed.arrayBased ((env.sourceAudio.set_frame_rate 16000).set_channels 1)⟩
        else .error .exc
      else .error .exc
  else .error .exc

/-- transcribe_audio_whisper: the body wrapped in try/except — any
exception is reported with st.error and mapped to None. -/
def transcribe_audio_whisper (env : WhisperEnv) : Option Transcription × List Msg :=
  match transcribeBody env with
  | .ok ok => (some ok.result, [])
  | .error _ => (none, [Msg.errorInTranscription])

/-! ### Result Presenter statistics (src/app.py 412-417) -/

/-- The sidebar model options (src/app.py 195-199). -/
def model_options : List String :=
  ["base (Fast & Good)", "small (Better)", "medium (Best)"]

/-- Words Transcribed statistic: len(transcription['text'].split()). -/
def word_count (t : Transcription) : ℕ := (pySplitWs t.text).length

/-- Subtitle Segments statistic: len(transcription.get('segments', [])). -/
def segment_count (t : Transcription) : ℕ := t.segments.length

/-- Model Used statistic: model_option.split()[0] (line 416); none models
the IndexError on an all-whitespace option string. -/
def statsModelUsed (model_option : String) : Option String :=
  (pySplitWs model_option).head?

/-! ### The pipeline run (main's processing block, src/app.py 243-421) -/

/-- The output video artifact: the re-encoded video with burned-in
overlays, or the byte-for-byte copy of the original made by the fallback
(shutil.copy, line 358). -/
inductive OutputVideo where
  | burned
  | originalCopy
deriving DecidableEq

/-- Terminal state of one processing run: aborted at a stage (the early
returns at lines 256, 272 and 362), or done with the transcription, the
subtitle file content, the output video kind and whether the run degraded
to the no-subtitles fallback. -/
inductive RunOutcome where
  | abortedExtract
  | abortedTranscribe
  | abortedBurn
  | done (transcription : Transcription) (srtContent : String)
      (output : OutputVideo) (degraded : Bool)
deriving DecidableEq

/-- Outcomes of the external calls of one run: the extractor and
transcriber environments, whether the subtitle-burning try-block (lines
298-351) succeeds, and whether the fallback shutil.copy succeeds. -/
structure RunEnv where
  video : VideoEnv
  whisper : WhisperEnv
  burnOk : Bool
  copyOk : Bool
deriving DecidableEq

/-- The processing block of main: extract (abort on False), transcribe
(abort on None), generate the SRT and write it (no abort, whatever the
content), burn with fallback (abort only if the fallback copy also
fails), then present results. -/
def run (env : RunEnv) : RunOutcome × List Msg :=
  let ext := extract_audio_from_video env.video
  if ext.1 = false then (RunOutcome.abortedExtract, ext.2 ++ [Msg.failedToExtract])
  else
    let tr := transcribe_audio_whisper env.whisper
    match tr.1 with
    | none =>
      (RunOutcome.abortedTranscribe,
        ext.2 ++ [Msg.audioExtracted] ++ tr.2 ++ [Msg.transcriptionFailed])
    | some transcription =>
      let srt := generate_srt_from_transcription transcription
      let msgs := ext.2 ++ [Msg.audioExtracted] ++ tr.2 ++ [Msg.transcriptionCompleted]
        ++ srt.2 ++ [Msg.srtGenerated]
      if env.burnOk then
        (RunOutcome.done transcription srt.1 OutputVideo.burned false,
          msgs ++ [Msg.subtitlesBurned, Msg.processingComplete, Msg.allCompleted])
      else
        if env.copyOk then
          (RunOutcome.done transcription srt.1 OutputVideo.originalCopy true,
            msgs ++ [Msg.usingAlternativeMethod, Msg.videoSavedWithoutSubtitles,
              Msg.processingComplete, Msg.allCompleted])
        else
          (RunOutcome.abortedBurn,
            msgs ++ [Msg.usingAlternativeMethod, Msg.couldNotProcess])

/-! ### Benchmarks (src/simple.py, src/low_lat.py) -/

/-- dot_product_simple (src/simple.py lines 3-15): raise ValueError on a
length mismatch, else accumulate a[i] * b[i] over i in range(len(a)). -/
def dot_product_simple (list_a list_b : List ℤ) : Except String ℤ :=
  if list_a.length ≠ list_b.length then .error "Lists must be of the same length"
  else .ok ((List.range list_a.length).foldl
    (fun result i => result + list_a.getD i 0 * list_b.getD i 0) 0)

/-- Modelled from the spec: numpy.dot on one-dimensional integer arrays is
the inner product — the sum of elementwise products — and raises on a
length mismatch.  Fixed-width dtype overflow is outside this model. -/
def dot_product_numpy (array_a array_b : List ℤ) : Except String ℤ :=
  if array_a.length ≠ array_b.length then .error "shapes not aligned"
  else .ok ((List.zipWith (fun x y => x * y) array_a array_b).sum)

/-! ### Concrete inputs used by witnesses and counterexamples -/

/-- A well-formed segment carrying the upstream id 99. -/
def wSegA : RawSegment := ⟨some 99, some (qInt 1), some (qInt 2), some " hello"⟩

/-- A well-formed segment carrying the upstream id 7. -/
def wSegB : RawSegment := ⟨some 7, some (qInt 2), some (qInt 3), some "world"⟩

/-- A two-segment transcription. -/
def wTranscript : Transcription := ⟨" hello world", [wSegA, wSegB]⟩

/-- A segment whose text carries surrounding whitespace, as Whisper
segments typically do. -/
def paddedSeg : RawSegment := ⟨none, some (qInt 0), some (qInt 1), some " hello "⟩

/-- A transcription holding the padded segment. -/
def paddedT : Transcription := ⟨" hello ", [paddedSeg]⟩

/-- A zero-duration segment: end = start = 5 seconds. -/
def zeroDurSeg : RawSegment := ⟨some 42, some (qInt 5), some (qInt 5), some "hi"⟩

/-- A transcription holding the zero-duration segment. -/
def zeroDurT : Transcription := ⟨"hi", [zeroDurSeg]⟩

/-- A malformed segment: the 'end' key is missing. -/
def malformedSeg : RawSegment := ⟨none, some (qInt 0), none, some "hi"⟩

/-- A transcription holding the malformed segment. -/
def malformedT : Transcription := ⟨"hi", [malformedSeg]⟩

/-- A transcription with no segments (keeps run-level examples small). -/
def tinyT : Transcription := ⟨"hi", []⟩

/-- The transcription returned by the raw-sample fallback in examples. -/
def tinyT2 : Transcription := ⟨"fallback", []⟩

/-- A transcriber environment where native file decoding succeeds. -/
def wWhisperFileEnv : WhisperEnv := ⟨true, true, tinyT, ⟨44100, 2⟩, true, true, tinyT2⟩

/-- A transcriber environment where native file decoding fails and the
raw-sample fallback succeeds. -/
def wWhisperArrayEnv : WhisperEnv := ⟨true, false, tinyT, ⟨44100, 2⟩, true, true, tinyT2⟩

/-- A run where burning fails and the fallback copy also fails. -/
def envBurnAndCopyFail : RunEnv := ⟨⟨true, true, true⟩, wWhisperFileEnv, false, false⟩

/-- A run where burning fails and the fallback copy succeeds. -/
def envBurnFailCopyOk : RunEnv := ⟨⟨true, true, true⟩, wWhisperFileEnv, false, true⟩

/-- A run whose transcription contains the malformed segment; burning
succeeds. -/
def envMalformed : RunEnv :=
  ⟨⟨true, true, true⟩, ⟨true, true, malformedT, ⟨44100, 2⟩, true, true, malformedT⟩, true, true⟩

/-- The transcript of the specification's end-to-end example: full text
"hello world", one segment from 1s to 2s. -/
def helloT : Transcription :=
  ⟨"hello world", [⟨none, some (qInt 1), some (qInt 2), some " hello world"⟩]⟩

/-! ## Theorems -/

/-! ### Bridging lemmas for the executable rationals -/

theorem qInt_eq_cast (n : ℤ) : qInt n = (n : ℚ) := by
  apply Rat.ext
  · simp [qInt, Rat.num_intCast]
  · simp [qInt, Rat.den_intCast]

theorem tdMicroseconds_eq_round (q : ℚ) : tdMicroseconds q = round (q * 1000000) := by
  have hden : (q.den : ℚ) ≠ 0 := Nat.cast_ne_zero.mpr q.den_nz
  rw [round_eq]
  have key : q * 1000000 + 1 / 2
      = ((2000000 * q.num + (q.den : ℤ) : ℤ) : ℚ) / ((2 * q.den : ℕ) : ℚ) := by
    conv_lhs => rw [← Rat.num_div_den q]
    push_cast
    field_simp
    ring
  rw [key, Rat.floor_intCast_div_natCast, tdMicroseconds]
  push_cast
  rfl

theorem tdMicroseconds_nonneg {q : ℚ} (h : 0 ≤ q) : 0 ≤ tdMicroseconds q := by
  rw [tdMicroseconds_eq_round, round_eq]
  have : (0 : ℚ) ≤ q * 1000000 + 1 / 2 := by positivity
  exact Int.floor_nonneg.mpr (by linarith)

theorem tdMicroseconds_le (q : ℚ) : (tdMicroseconds q : ℚ) ≤ q * 1000000 + 1 / 2 := by
  rw [tdMicroseconds_eq_round, round_eq]
  exact Int.floor_le _

theorem lt_tdMicroseconds_add_half (q : ℚ) : q * 1000000 < (tdMicroseconds q : ℚ) + 1 / 2 := by
  rw [tdMicroseconds_eq_round, round_eq]
  have := Int.lt_floor_add_one (q * 1000000 + 1 / 2)
  linarith

/-- Seconds, to timedelta microseconds, truncated to whole milliseconds,
read back as seconds: within a millisecond of the original. -/
theorem msDiv_close {q : ℚ} (h : 0 ≤ q) :
    |(((tdMicroseconds q).toNat / 1000 : ℕ) : ℚ) / 1000 - q| < 1 / 1000 := by
  set n : ℕ := (tdMicroseconds q).toNat with hn
  have hcast : ((n : ℤ) : ℚ) = (tdMicroseconds q : ℚ) := by
    rw [hn, Int.toNat_of_nonneg (tdMicroseconds_nonneg h)]
  have h1 : 1000 * (n / 1000) ≤ n := Nat.mul_div_le n 1000
  have h2 : n ≤ 1000 * (n / 1000) + 999 := by
    have := Nat.div_add_mod n 1000
    have : n % 1000 < 1000 := Nat.mod_lt _ (by norm_num)
    omega
  have hq1 : ((n : ℚ)) ≤ q * 1000000 + 1 / 2 := by
    rw [show ((n : ℚ)) = ((n : ℤ) : ℚ) by push_cast; ring, hcast]
    exact tdMicroseconds_le q
  have hq2 : q * 1000000 < (n : ℚ) + 1 / 2 := by
    rw [show ((n : ℚ)) = ((n : ℤ) : ℚ) by push_cast; ring, hcast]
    exact lt_tdMicroseconds_add_half q
  have hc1 : ((1000 * (n / 1000) : ℕ) : ℚ) ≤ (n : ℚ) := Nat.cast_le.mpr h1
  have hc2 : ((n : ℚ)) ≤ ((1000 * (n / 1000) + 999 : ℕ) : ℚ) := Nat.cast_le.mpr h2
  push_cast at hc1 hc2
  rw [abs_sub_lt_iff]
  constructor <;> linarith

/-! ### Structure of the formatter's subtitle list -/

theorem subtitleOfSegment_wellFormed (i : ℕ) (seg : RawSegment) (h : seg.wellFormed) :
    subtitleOfSegment i seg = some (expectedSubtitle i seg) := by
  obtain ⟨h1, h2, h3⟩ := h
  obtain ⟨s, hs⟩ := Option.isSome_iff_exists.mp h1
  obtain ⟨e, he⟩ := Option.isSome_iff_exists.mp h2
  obtain ⟨txt, ht⟩ := Option.isSome_iff_exists.mp h3
  simp [subtitleOfSegment, hs, he, ht, expectedSubtitle, RawSegment.startQ,
    RawSegment.endQ, RawSegment.textD]

theorem buildSubtitlesFrom_wellFormed :
    ∀ (segs : List RawSegment) (i : ℕ), (∀ s ∈ segs, s.wellFormed) →
      buildSubtitlesFrom i segs = some (expectedSubtitles i segs)
  | [], _, _ => rfl
  | seg :: rest, i, h => by
    rw [buildSubtitlesFrom, subtitleOfSegment_wellFormed i seg (h seg (by simp)),
      buildSubtitlesFrom_wellFormed rest (i + 1) (fun s hs => h s (by simp [hs]))]
    rfl

theorem expectedSubtitles_length : ∀ (segs : List RawSegment) (i : ℕ),
    (expectedSubtitles i segs).length = segs.length
  | [], _ => rfl
  | _ :: rest, i => by
    simp [expectedSubtitles, expectedSubtitles_length rest (i + 1)]

theorem expectedSubtitles_get : ∀ (segs : List RawSegment) (i j : ℕ)
    (hj : j < (expectedSubtitles i segs).length) (hj' : j < segs.length),
    (expectedSubtitles i segs).get ⟨j, hj⟩ = expectedSubtitle (i + j) (segs.get ⟨j, hj'⟩)
  | [], _, j, hj, _ => by simp [expectedSubtitles] at hj
  | seg :: rest, i, 0, _, _ => by simp [expectedSubtitles]
  | seg :: rest, i, j + 1, hj, hj' => by
    have := expectedSubtitles_get rest (i + 1) j (by simpa [expectedSubtitles] using hj)
      (by simpa using hj')
    simpa [expectedSubtitles, Nat.add_assoc, Nat.add_comm 1 j] using this

theorem expectedSubtitles_map_index : ∀ (segs : List RawSegment) (i : ℕ),
    (expectedSubtitles i segs).map Subtitle.index = List.range' (i + 1) segs.length
  | [], _ => rfl
  | seg :: rest, i => by
    simp [expectedSubtitles, expectedSubtitle, List.range'_succ,
      expectedSubtitles_map_index rest (i + 1)]

/-! ### Decimal rendering and its parse inverse -/

theorem natCharsAux_zero (n : ℕ) : natCharsAux 0 n = [] := rfl

theorem natCharsAux_succ (fuel n : ℕ) :
    natCharsAux (fuel + 1) n =
      if n < 10 then [digitChar n] else natCharsAux fuel (n / 10) ++ [digitChar (n % 10)] := rfl

theorem parseEntriesAux_succ (fuel : ℕ) (cs : List Char) :
    parseEntriesAux (fuel + 1) cs =
      match parseBlockTok cs with
      | some (e, rest) => e :: parseEntriesAux fuel rest
      | none => [] := rfl

theorem wsTokensAux_succ (fuel : ℕ) (cs : List Char) :
    wsTokensAux (fuel + 1) cs =
      match spanNonWs (cs.dropWhile isPySpace) with
      | ([], _) => []
      | (tok, rest) => tok :: wsTokensAux fuel rest := rfl

theorem digitChar_isDigit (n : ℕ) : (digitChar n).isDigit = true := by
  have h : n % 10 < 10 := Nat.mod_lt _ (by norm_num)
  unfold digitChar
  interval_cases h : n % 10 <;> decide

theorem digitChar_toNat (n : ℕ) : (digitChar n).toNat = 48 + n % 10 := by
  have h : n % 10 < 10 := Nat.mod_lt _ (by norm_num)
  unfold digitChar
  interval_cases h : n % 10 <;> decide

theorem natCharsAux_ne_nil : ∀ (fuel n : ℕ), n < fuel → natCharsAux fuel n ≠ []
  | fuel + 1, n, _ => by
    rw [natCharsAux_succ]
    split
    · simp
    · simp

theorem natCharsAux_digits : ∀ (fuel n : ℕ), ∀ c ∈ natCharsAux fuel n, c.isDigit = true
  | 0, n => by simp [natCharsAux_zero]
  | fuel + 1, n => by
    rw [natCharsAux_succ]
    split
    · simp [digitChar_isDigit]
    · intro c hc
      rcases List.mem_append.mp hc with h | h
      · exact natCharsAux_digits fuel (n / 10) c h
      · simp at h
        simp [h, digitChar_isDigit]

theorem digitsVal_append_digit (xs : List Char) (c : Char) :
    digitsVal (xs ++ [c]) = digitsVal xs * 10 + (c.toNat - 48) := by
  simp [digitsVal, List.foldl_append]

theorem digitsVal_natCharsAux : ∀ (fuel n : ℕ), n < fuel →
    digitsVal (natCharsAux fuel n) = n
  | fuel + 1, n, h => by
    rw [natCharsAux_succ]
    split
    · next h10 =>
      simp [digitsVal, digitChar_toNat]
      omega
    · next h10 =>
      push_neg at h10
      have hlt : n / 10 < fuel := by
        have := Nat.div_lt_self (by omega : 0 < n) (by norm_num : 1 < 10)
        omega
      rw [digitsVal_append_digit, digitsVal_natCharsAux fuel (n / 10) hlt, digitChar_toNat]
      omega

theorem natChars_ne_nil (n : ℕ) : natChars n ≠ [] :=
  natCharsAux_ne_nil (n + 1) n (Nat.lt_succ_self n)

theorem natChars_digits (n : ℕ) : ∀ c ∈ natChars n, c.isDigit = true :=
  natCharsAux_digits (n + 1) n

theorem digitsVal_natChars (n : ℕ) : digitsVal (natChars n) = n :=
  digitsVal_natCharsAux (n + 1) n (Nat.lt_succ_self n)

theorem padZeros_ne_nil (w : ℕ) (cs : List Char) (h : cs ≠ []) : padZeros w cs ≠ [] := by
  simp [padZeros, h]

theorem padZeros_digits (w : ℕ) (cs : List Char) (h : ∀ c ∈ cs, c.isDigit = true) :
    ∀ c ∈ padZeros w cs, c.isDigit = true := by
  intro c hc
  rcases List.mem_append.mp hc with h' | h'
  · have := List.eq_of_mem_replicate h'
    simp [this]
  · exact h c h'

theorem digitsVal_replicate_zero (k : ℕ) (cs : List Char) :
    digitsVal (List.replicate k '0' ++ cs) = digitsVal cs := by
  induction k with
  | zero => rfl
  | succ k ih =>
    simpa [digitsVal, List.replicate_succ] using ih

theorem digitsVal_padZeros (w : ℕ) (cs : List Char) :
    digitsVal (padZeros w cs) = digitsVal cs :=
  digitsVal_replicate_zero _ cs

/-! ### The parser inverts the serializer -/

theorem spanDigits_append (ds rest : List Char) (hd : ∀ c ∈ ds, c.isDigit = true)
    (hr : ∀ c, rest.head? = some c → c.isDigit = false) :
    spanDigits (ds ++ rest) = (ds, rest) := by
  induction ds with
  | nil =>
    cases rest with
    | nil => rfl
    | cons c cs =>
      have := hr c rfl
      simp [spanDigits, this]
  | cons d ds ih =>
    have hdd : d.isDigit = true := hd d (by simp)
    have := ih (fun c hc => hd c (by simp [hc]))
    simp [spanDigits, hdd, this]

theorem parseNatTok_append (ds rest : List Char) (hne : ds ≠ [])
    (hd : ∀ c ∈ ds, c.isDigit = true)
    (hr : ∀ c, rest.head? = some c → c.isDigit = false) :
    parseNatTok (ds ++ rest) = some (digitsVal ds, rest) := by
  rw [parseNatTok, spanDigits_append ds rest hd hr]
  cases ds with
  | nil => exact absurd rfl hne
  | cons d ds => rfl

theorem parseTimestampTok_srtTimestamp (us : ℕ) (rest : List Char)
    (hr : ∀ c, rest.head? = some c → c.isDigit = false) :
    parseTimestampTok (srtTimestamp us ++ rest) = some (us / 1000, rest) := by
  have hcolon : ∀ (tail : List Char) (c : Char), (':' :: tail).head? = some c → c.isDigit = false := by
    intro tail c hc
    simp only [List.head?_cons, Option.some.injEq] at hc
    subst hc
    decide
  have hcomma : ∀ (tail : List Char) (c : Char), (',' :: tail).head? = some c → c.isDigit = false := by
    intro tail c hc
    simp only [List.head?_cons, Option.some.injEq] at hc
    subst hc
    decide
  have e1 := parseNatTok_append (padZeros 2 (natChars (us / 3600000000)))
    (':' :: (padZeros 2 (natChars (us / 60000000 % 60)) ++ ':' ::
      (padZeros 2 (natChars (us / 1000000 % 60)) ++ ',' ::
      (padZeros 3 (natChars (us / 1000 % 1000)) ++ rest))))
    (padZeros_ne_nil _ _ (natChars_ne_nil _)) (padZeros_digits _ _ (natChars_digits _))
    (hcolon _)
  have e2 := parseNatTok_append (padZeros 2 (natChars (us / 60000000 % 60)))
    (':' :: (padZeros 2 (natChars (us / 1000000 % 60)) ++ ',' ::
      (padZeros 3 (natChars (us / 1000 % 1000)) ++ rest)))
    (padZeros_ne_nil _ _ (natChars_ne_nil _)) (padZeros_digits _ _ (natChars_digits _))
    (hcolon _)
  have e3 := parseNatTok_append (padZeros 2 (natChars (us / 1000000 % 60)))
    (',' :: (padZeros 3 (natChars (us / 1000 % 1000)) ++ rest))
    (padZeros_ne_nil _ _ (natChars_ne_nil _)) (padZeros_digits _ _ (natChars_digits _))
    (hcomma _)
  have e4 := parseNatTok_append (padZeros 3 (natChars (us / 1000 % 1000))) rest
    (padZeros_ne_nil _ _ (natChars_ne_nil _)) (padZeros_digits _ _ (natChars_digits _))
    hr
  simp only [srtTimestamp, List.append_assoc, List.singleton_append, List.cons_append,
    List.nil_append, parseTimestampTok, e1, e2, e3, e4, expectChar, if_pos,
    digitsVal_padZeros, digitsVal_natChars, Option.some.injEq, Prod.mk.injEq, and_true]
  omega

theorem head_cons_not_digit {d : Char} (hd : d.isDigit = false) :
    ∀ (tail : List Char) (c : Char), (d :: tail).head? = some c → c.isDigit = false := by
  intro tail c hc
  simp only [List.head?_cons, Option.some.injEq] at hc
  subst hc
  exact hd

theorem takeUntilBlank_append (content rest : List Char) (h : '\n' ∉ content) :
    takeUntilBlank (content ++ '\n' :: '\n' :: rest) = some (content, rest) := by
  induction content with
  | nil => rfl
  | cons c cs ih =>
    have hc : c ≠ '\n' := by
      intro hcc
      exact h (by simp [hcc])
    have hcs : '\n' ∉ cs := fun hm => h (by simp [hm])
    cases cs with
    | nil =>
      simp [takeUntilBlank, hc]
    | cons d cs2 =>
      have := ih hcs
      simp only [List.cons_append] at this ⊢
      rw [takeUntilBlank, if_neg (by simp [hc]), this]
      rfl

theorem parseBlockTok_block (s : Subtitle) (rest : List Char) (h : GoodSub s) :
    parseBlockTok (subtitleBlock s ++ rest) = some (parsedOf s, rest) := by
  obtain ⟨hs0, he0, hnl⟩ := h
  have hZs : srtTimestampZ s.startUs = srtTimestamp s.startUs.toNat := by
    rw [srtTimestampZ, if_neg (not_lt.mpr hs0)]
  have hZe : srtTimestampZ s.endUs = srtTimestamp s.endUs.toNat := by
    rw [srtTimestampZ, if_neg (not_lt.mpr he0)]
  have e1 := parseNatTok_append (natChars s.index)
    ('\n' :: (srtTimestamp s.startUs.toNat ++ ' ' :: '-' :: '-' :: '>' :: ' ' ::
      (srtTimestamp s.endUs.toNat ++ '\n' :: (s.content.data ++ '\n' :: '\n' :: rest))))
    (natChars_ne_nil _) (natChars_digits _) (head_cons_not_digit (by decide) _)
  have t1 := parseTimestampTok_srtTimestamp s.startUs.toNat
    (' ' :: '-' :: '-' :: '>' :: ' ' ::
      (srtTimestamp s.endUs.toNat ++ '\n' :: (s.content.data ++ '\n' :: '\n' :: rest)))
    (head_cons_not_digit (by decide) _)
  have t2 := parseTimestampTok_srtTimestamp s.endUs.toNat
    ('\n' :: (s.content.data ++ '\n' :: '\n' :: rest))
    (head_cons_not_digit (by decide) _)
  have tb := takeUntilBlank_append s.content.data rest hnl
  simp only [subtitleBlock, hZs, hZe, List.append_assoc, List.singleton_append,
    List.cons_append, List.nil_append, parseBlockTok, e1, t1, t2, tb, expectChar,
    expectSeq, if_pos, digitsVal_natChars]
  rfl

theorem subtitleBlock_length_pos (s : Subtitle) : 1 ≤ (subtitleBlock s).length := by
  simp [subtitleBlock]
  omega

theorem composeChars_cons (s : Subtitle) (rest : List Subtitle) :
    composeChars (s :: rest) = subtitleBlock s ++ composeChars rest := by
  simp [composeChars]

theorem composeChars_length_ge : ∀ subs : List Subtitle,
    subs.length ≤ (composeChars subs).length
  | [] => Nat.le_refl 0
  | s :: rest => by
    have h1 := subtitleBlock_length_pos s
    have h2 := composeChars_length_ge rest
    simp only [composeChars_cons, List.length_append, List.length_cons]
    omega

theorem parseEntriesAux_compose : ∀ (subs : List Subtitle) (fuel : ℕ),
    (∀ s ∈ subs, GoodSub s) → subs.length < fuel →
    parseEntriesAux fuel (composeChars subs) = subs.map parsedOf
  | [], 0, _, _ => rfl
  | [], fuel + 1, _, _ => by
    rw [parseEntriesAux_succ]
    rfl
  | s :: rest, 0, _, hf => by omega
  | s :: rest, fuel + 1, h, hf => by
    rw [parseEntriesAux_succ, composeChars_cons,
      parseBlockTok_block s (composeChars rest) (h s (by simp))]
    have ih := parseEntriesAux_compose rest fuel (fun x hx => h x (by simp [hx]))
      (by simpa using Nat.lt_of_succ_lt_succ hf)
    simp [ih]

/-- Parsing back the serialization of any list of good subtitles recovers
them entry for entry, with times truncated to whole milliseconds. -/
theorem srtParse_compose (subs : List Subtitle) (h : ∀ s ∈ subs, GoodSub s) :
    srtParse (compose subs) = subs.map parsedOf := by
  have hlt : subs.length < (composeChars subs).length + 1 :=
    Nat.lt_succ_of_le (composeChars_length_ge subs)
  exact parseEntriesAux_compose subs _ h hlt

/-! ### Counting whitespace-delimited tokens -/
theorem countTokensScan_dropWhile : ∀ cs : List Char,
    countTokensScan (cs.dropWhile isPySpace) false = countTokensScan cs false
  | [] => rfl
  | c :: cs => by
    by_cases h : isPySpace c
    · rw [List.dropWhile_cons_of_pos h]
      rw [countTokensScan_dropWhile cs]
      simp [countTokensScan, h]
    · rw [List.dropWhile_cons_of_neg h]

theorem countTokensScan_true_spanRest : ∀ cs : List Char,
    countTokensScan cs true = countTokensScan (spanNonWs cs).2 false
  | [] => rfl
  | c :: cs => by
    by_cases h : isPySpace c
    · simp [spanNonWs, h, countTokensScan]
    · have ih := countTokensScan_true_spanRest cs
      simp [countTokensScan, spanNonWs, h, ih]

theorem spanNonWs_snd_le : ∀ cs : List Char, (spanNonWs cs).2.length ≤ cs.length
  | [] => Nat.le_refl 0
  | c :: cs => by
    have ih := spanNonWs_snd_le cs
    cases h : isPySpace c
    · simp only [spanNonWs, h, Bool.false_eq_true, if_false, List.length_cons]
      omega
    · simp [spanNonWs, h]

theorem dropWhile_length_le_self : ∀ cs : List Char,
    (cs.dropWhile isPySpace).length ≤ cs.length
  | [] => Nat.le_refl 0
  | c :: cs => by
    by_cases h : isPySpace c
    · rw [List.dropWhile_cons_of_pos h]
      have := dropWhile_length_le_self cs
      simp only [List.length_cons]
      omega
    · rw [List.dropWhile_cons_of_neg h]

theorem dropWhile_head_not (cs : List Char) (x : Char) (xs : List Char)
    (h : cs.dropWhile isPySpace = x :: xs) : isPySpace x = false := by
  induction cs with
  | nil => simp at h
  | cons c cs ih =>
    by_cases hc : isPySpace c
    · rw [List.dropWhile_cons_of_pos hc] at h
      exact ih h
    · rw [List.dropWhile_cons_of_neg hc] at h
      cases h
      simpa using hc

theorem wsTokensAux_count : ∀ (fuel : ℕ) (cs : List Char), cs.length < fuel →
    (wsTokensAux fuel cs).length = countTokensScan cs false
  | fuel + 1, cs, hf => by
    rw [wsTokensAux_succ]
    rcases hspan : spanNonWs (cs.dropWhile isPySpace) with ⟨tok, rest⟩
    cases tok with
    | nil =>
      rcases hdrop : cs.dropWhile isPySpace with _ | ⟨x, xs⟩
      · rw [← countTokensScan_dropWhile cs, hdrop]
        rfl
      · exfalso
        have hx : isPySpace x = false := dropWhile_head_not cs x xs hdrop
        rw [hdrop] at hspan
        simp [spanNonWs, hx] at hspan
    | cons t ts =>
      simp only [List.length_cons]
      rcases hdrop : cs.dropWhile isPySpace with _ | ⟨x, xs⟩
      · rw [hdrop] at hspan
        simp [spanNonWs] at hspan
      · have hx : isPySpace x = false := dropWhile_head_not cs x xs hdrop
        rw [hdrop] at hspan
        have hrest : rest = (spanNonWs xs).2 := by
          simp [spanNonWs, hx] at hspan
          exact hspan.2.symm
        have hcount : countTokensScan cs false = 1 + countTokensScan rest false := by
          rw [← countTokensScan_dropWhile cs, hdrop]
          simp only [countTokensScan, hx, Bool.false_eq_true, if_false]
          rw [countTokensScan_true_spanRest xs, ← hrest]
        have hlen : rest.length < fuel := by
          have h1 := dropWhile_length_le_self cs
          have h2 : (spanNonWs xs).2.length ≤ xs.length := spanNonWs_snd_le xs
          rw [hdrop] at h1
          simp only [List.length_cons] at h1
          rw [hrest]
          omega
        rw [wsTokensAux_count fuel rest hlen, hcount]
        omega

/-! ### Claims C1 and C3 -/
/-- C1: for every transcription whose segments all carry start, end and
text fields (the shape the transcriber emits), the Subtitle Formatter
builds exactly one subtitle record per segment, in input order, with
indices assigned sequentially 1..N independently of the segments' upstream
ids, and serializes exactly that list. -/
theorem C1_formatter_one_entry_per_segment (t : Transcription)
    (h : ∀ seg ∈ t.segments, seg.wellFormed) :
    ∃ subs : List Subtitle,
      buildSubtitles t.segments = some subs ∧
      (generate_srt_from_transcription t).1 = compose subs ∧
      subs.length = t.segments.length ∧
      subs.map Subtitle.index = List.range' 1 t.segments.length ∧
      ∀ j (hj : j < subs.length) (hj' : j < t.segments.length),
        subs.get ⟨j, hj⟩ = expectedSubtitle j (t.segments.get ⟨j, hj'⟩) := by
  refine ⟨expectedSubtitles 0 t.segments, buildSubtitlesFrom_wellFormed t.segments 0 h, ?_,
    expectedSubtitles_length t.segments 0,
    by simpa using expectedSubtitles_map_index t.segments 0, ?_⟩
  · simp [generate_srt_from_transcription, buildSubtitles,
      buildSubtitlesFrom_wellFormed t.segments 0 h]
  · intro j hj hj'
    simpa using expectedSubtitles_get t.segments 0 j hj hj'

/-- C1 witness: on a concrete two-segment transcription whose segments
carry upstream ids 99 and 7, the formatter yields exactly two records with
indices 1 and 2. -/
theorem C1_witness :
    (buildSubtitles wTranscript.segments).map (fun subs => subs.map Subtitle.index)
        = some [1, 2] ∧
    (buildSubtitles wTranscript.segments).map List.length = some 2 := by
  obtain ⟨subs, h1, _, h3, h4, _⟩ :=
    C1_formatter_one_entry_per_segment wTranscript (by decide)
  rw [h1]
  refine ⟨?_, ?_⟩
  · rw [Option.map_some', h4]
    rfl
  · rw [Option.map_some', h3]
    rfl

/-- C3 counterexample: formatting a transcription whose single segment has
text " hello " and parsing the result back yields content "hello" — the
formatter strips the text (src/app.py line 100), so the text content is
not preserved exactly, refuting the claim as stated. -/
theorem C3_counterexample :
    srtParse (generate_srt_from_transcription paddedT).1 = [⟨1, 0, 1000, "hello"⟩] ∧
    paddedSeg.seg_text = some " hello " ∧
    ("hello" : String) ≠ " hello " := by
  refine ⟨by decide, rfl, by decide⟩

/-- C3 (amended): for every transcription whose segments are well formed
with nonnegative times and single-line stripped texts, formatting with
generate_srt_from_transcription and parsing the text back yields one entry
per segment, in order, whose text equals the stripped original segment
text and whose start and end times are within one millisecond of the
originals. -/
theorem C3_round_trip_amended (t : Transcription)
    (h : ∀ seg ∈ t.segments, seg.wellFormed ∧ 0 ≤ seg.startQ ∧ 0 ≤ seg.endQ ∧
      '\n' ∉ (pyStrip seg.textD).data) :
    (srtParse (generate_srt_from_transcription t).1).length = t.segments.length ∧
    ∀ j, j < t.segments.length →
      ((srtParse (generate_srt_from_transcription t).1).getD j ⟨0, 0, 0, ""⟩).content
          = pyStrip (t.segments.getD j ⟨none, none, none, none⟩).textD ∧
      |((srtParse (generate_srt_from_transcription t).1).getD j ⟨0, 0, 0, ""⟩).startSeconds
          - (t.segments.getD j ⟨none, none, none, none⟩).startQ| < 1 / 1000 ∧
      |((srtParse (generate_srt_from_transcription t).1).getD j ⟨0, 0, 0, ""⟩).endSeconds
          - (t.segments.getD j ⟨none, none, none, none⟩).endQ| < 1 / 1000 := by
  have hwf : ∀ seg ∈ t.segments, seg.wellFormed := fun s hs => (h s hs).1
  have hgen : (generate_srt_from_transcription t).1 = compose (expectedSubtitles 0 t.segments) := by
    simp [generate_srt_from_transcription, buildSubtitles,
      buildSubtitlesFrom_wellFormed t.segments 0 hwf]
  have hmem : ∀ s ∈ expectedSubtitles 0 t.segments, GoodSub s := by
    intro s hs
    obtain ⟨⟨j, hj⟩, rfl⟩ := List.mem_iff_get.mp hs
    have hj' : j < t.segments.length := by
      have := expectedSubtitles_length t.segments 0
      omega
    rw [expectedSubtitles_get t.segments 0 j hj hj']
    have hseg := h (t.segments.get ⟨j, hj'⟩) (List.get_mem _ _ _)
    refine ⟨tdMicroseconds_nonneg hseg.2.1, tdMicroseconds_nonneg hseg.2.2.1, ?_⟩
    simpa [expectedSubtitle] using hseg.2.2.2
  have hparse : srtParse (generate_srt_from_transcription t).1
      = (expectedSubtitles 0 t.segments).map parsedOf := by
    rw [hgen]
    exact srtParse_compose _ hmem
  have hlen : (srtParse (generate_srt_from_transcription t).1).length = t.segments.length := by
    rw [hparse, List.length_map, expectedSubtitles_length]
  refine ⟨hlen, ?_⟩
  intro j hj'
  have hje : j < (expectedSubtitles 0 t.segments).length := by
    rw [expectedSubtitles_length]
    exact hj'
  have hjm : j < ((expectedSubtitles 0 t.segments).map parsedOf).length := by
    rw [List.length_map]
    exact hje
  have hgetP : (srtParse (generate_srt_from_transcription t).1).getD j ⟨0, 0, 0, ""⟩
      = parsedOf ((expectedSubtitles 0 t.segments).get ⟨j, hje⟩) := by
    rw [hparse, List.getD_eq_getElem _ _ hjm, List.getElem_map]
    rfl
  have hgetS : t.segments.getD j ⟨none, none, none, none⟩ = t.segments.get ⟨j, hj'⟩ :=
    List.getD_eq_getElem _ _ hj'
  have hes := expectedSubtitles_get t.segments 0 j hje hj'
  have hseg := h (t.segments.get ⟨j, hj'⟩) (List.get_mem _ _ _)
  rw [hgetP, hgetS, hes]
  simp only [Nat.zero_add]
  refine ⟨rfl, ?_, ?_⟩
  · simpa [parsedOf, expectedSubtitle, ParsedSubtitle.startSeconds, RawSegment.startQ]
      using msDiv_close hseg.2.1
  · simpa [parsedOf, expectedSubtitle, ParsedSubtitle.endSeconds, RawSegment.endQ]
      using msDiv_close hseg.2.2.1

/-- C3 witness: the round trip on a concrete two-segment transcription
yields two entries, the first with content "hello" (the stripped
" hello"). -/
theorem C3_witness :
    (srtParse (generate_srt_from_transcription wTranscript).1).length = 2 ∧
    ((srtParse (generate_srt_from_transcription wTranscript).1).getD 0 ⟨0, 0, 0, ""⟩).content
      = "hello" := by
  obtain ⟨h1, h2⟩ := C3_round_trip_amended wTranscript (by decide)
  refine ⟨by rw [h1]; rfl, ?_⟩
  have := (h2 0 (by decide)).1
  rw [this]
  decide

/-! ### Claims C4, C5, C7, C8, C9, C10 -/
/-- C4 counterexample: a well-formed segment with end = start = 5 seconds
is neither rejected nor clamped — the formatter emits a subtitle record
with endUs = startUs, the serialized output is nonempty and parses back to
one entry, refuting the claimed end > start invariant. -/
theorem C4_counterexample :
    buildSubtitles zeroDurT.segments
        = some [⟨1, tdMicroseconds (qInt 5), tdMicroseconds (qInt 5), "hi"⟩] ∧
    ¬ tdMicroseconds (qInt 5) > tdMicroseconds (qInt 5) ∧
    (generate_srt_from_transcription zeroDurT).1 ≠ "" ∧
    (srtParse (generate_srt_from_transcription zeroDurT).1).length = 1 := by
  refine ⟨by decide, lt_irrefl _, by decide, by decide⟩

/-- C4 (amended): the formatter applies no duration guard: it copies
segment times into entries verbatim, emits one entry per segment, and an
entry satisfies end > start exactly when the segment's rounded times do —
zero- or negative-duration entries are emitted as-is. -/
theorem C4_no_duration_guard (t : Transcription)
    (h : ∀ seg ∈ t.segments, seg.wellFormed) :
    ∃ subs : List Subtitle,
      buildSubtitles t.segments = some subs ∧
      subs.length = t.segments.length ∧
      ∀ j (hj : j < subs.length) (hj' : j < t.segments.length),
        (subs.get ⟨j, hj⟩).startUs = tdMicroseconds (t.segments.get ⟨j, hj'⟩).startQ ∧
        (subs.get ⟨j, hj⟩).endUs = tdMicroseconds (t.segments.get ⟨j, hj'⟩).endQ ∧
        ((subs.get ⟨j, hj⟩).endUs > (subs.get ⟨j, hj⟩).startUs ↔
          tdMicroseconds (t.segments.get ⟨j, hj'⟩).endQ
            > tdMicroseconds (t.segments.get ⟨j, hj'⟩).startQ) := by
  refine ⟨expectedSubtitles 0 t.segments, buildSubtitlesFrom_wellFormed t.segments 0 h,
    expectedSubtitles_length t.segments 0, ?_⟩
  intro j hj hj'
  have := expectedSubtitles_get t.segments 0 j hj hj'
  rw [this]
  simp [expectedSubtitle]

/-- C4 witness: the zero-duration transcription still yields exactly one
emitted subtitle record. -/
theorem C4_witness :
    (buildSubtitles zeroDurT.segments).map List.length = some 1 := by
  obtain ⟨subs, h1, h2, _⟩ := C4_no_duration_guard zeroDurT (by decide)
  rw [h1, Option.map_some', h2]
  rfl

/-- C5 code bug: the quality tier is a three-way user-facing option and
the statistics panel reports its first word as the model used, but
transcribe_audio_whisper passes the string literal "base" to
whisper.load_model on both decode tiers, ignoring the selection —
selecting "small (Better)" reports "small" while "base" is loaded. -/
theorem C5_model_tier_ignored :
    model_options.length = 3 ∧
    "small (Better)" ∈ model_options ∧
    statsModelUsed "small (Better)" = some "small" ∧
    transcribeBody wWhisperFileEnv
        = Except.ok ⟨tinyT, "base", DecodeUsed.fileBased⟩ ∧
    transcribeBody wWhisperArrayEnv
        = Except.ok ⟨tinyT2, "base", DecodeUsed.arrayBased ⟨16000, 1⟩⟩ ∧
    ("base" : String) ≠ "small" := by
  refine ⟨rfl, by decide, by decide, rfl, rfl, by decide⟩

/-- C7: the Transcriber uses a two-tier decode strategy — when the model
loads, a successful native file-based decode returns its transcript with
no fallback; when file-based decoding fails, the audio is resampled to
16000 Hz mono and the raw samples are transcribed, and that result is
returned. -/
theorem C7_two_tier_decode (env : WhisperEnv) (hload : env.loadModelOk = true) :
    (env.fileDecodeOk = true →
      transcribeBody env = Except.ok ⟨env.fileResult, "base", DecodeUsed.fileBased⟩ ∧
      (transcribe_audio_whisper env).1 = some env.fileResult) ∧
    (env.fileDecodeOk = false → env.resampleOk = true → env.arrayDecodeOk = true →
      transcribeBody env = Except.ok ⟨env.arrayResult, "base",
        DecodeUsed.arrayBased ((env.sourceAudio.set_frame_rate 16000).set_channels 1)⟩ ∧
      (env.sourceAudio.set_frame_rate 16000).set_channels 1 = ⟨16000, 1⟩ ∧
      (transcribe_audio_whisper env).1 = some env.arrayResult) := by
  constructor
  · intro hfile
    constructor
    · simp [transcribeBody, hload, hfile]
    · simp [transcribe_audio_whisper, transcribeBody, hload, hfile]
  · intro hfile hres harr
    refine ⟨by simp [transcribeBody, hload, hfile, hres, harr], rfl, ?_⟩
    simp [transcribe_audio_whisper, transcribeBody, hload, hfile, hres, harr]

/-- C7 witness: concrete environments for both tiers — file decoding
succeeding returns the file-based result; file decoding failing with a
working fallback returns the raw-sample result prepared at 16000 Hz
mono. -/
theorem C7_witness :
    transcribeBody wWhisperArrayEnv
        = Except.ok ⟨tinyT2, "base", DecodeUsed.arrayBased ⟨16000, 1⟩⟩ ∧
    (transcribe_audio_whisper wWhisperArrayEnv).1 = some tinyT2 ∧
    (transcribe_audio_whisper wWhisperFileEnv).1 = some tinyT := by
  have h1 := (C7_two_tier_decode wWhisperArrayEnv rfl).2 rfl rfl rfl
  have h2 := (C7_two_tier_decode wWhisperFileEnv rfl).1 rfl
  exact ⟨by rw [h1.1]; rfl, h1.2.2, h2.2⟩

/-- C8: the Result Presenter statistics — word_count equals the number of
whitespace-delimited tokens of the transcription's full text (proved
against an independent single-scan token counter) and segment_count equals
the length of the segment sequence; for full text "hello world" with one
segment they are 2 and 1. -/
theorem C8_stats :
    (∀ t : Transcription, word_count t = countTokensScan t.text.data false) ∧
    (∀ t : Transcription, segment_count t = t.segments.length) ∧
    word_count helloT = 2 ∧
    segment_count helloT = 1 := by
  refine ⟨?_, fun t => rfl, by decide, rfl⟩
  intro t
  rw [word_count, pySplitWs, List.length_map]
  exact wsTokensAux_count _ _ (Nat.lt_succ_self _)

/-- C9: extract_audio_from_video never propagates an exception — it
returns True exactly when the video opens, has an audio track and the
audio file is written; every exception of the body maps to False, and a
missing audio track also yields False, so the two cases are
indistinguishable at the Boolean interface. -/
theorem C9_extract_interface (env : VideoEnv) :
    ((extract_audio_from_video env).1 = true ↔
      env.openOk = true ∧ env.hasAudioTrack = true ∧ env.writeOk = true) ∧
    ((extractBody env).isOk = false → (extract_audio_from_video env).1 = false) ∧
    (env.hasAudioTrack = false → (extract_audio_from_video env).1 = false) ∧
    (env.openOk = false → (extract_audio_from_video env).1 = false) := by
  rcases env with ⟨o, a, w⟩
  cases o <;> cases a <;> cases w <;> decide

/-- C9 witness: a video with no audio track and a video that fails to
decode both return False. -/
theorem C9_witness :
    (extract_audio_from_video ⟨true, false, true⟩).1 = false ∧
    (extract_audio_from_video ⟨false, true, true⟩).1 = false :=
  ⟨(C9_extract_interface ⟨true, false, true⟩).2.2.1 rfl,
   (C9_extract_interface ⟨false, true, true⟩).2.2.2 rfl⟩

theorem dot_loop_eq_zipWith_sum : ∀ (a b : List ℤ), a.length = b.length → ∀ c : ℤ,
    (List.range a.length).foldl (fun result i => result + a.getD i 0 * b.getD i 0) c
      = c + (List.zipWith (fun x y => x * y) a b).sum
  | [], [], _, c => by simp
  | [], y :: b, h, c => by simp at h
  | x :: a, [], h, c => by simp at h
  | x :: a, y :: b, h, c => by
    have hlen : a.length = b.length := by simpa using h
    have ih := dot_loop_eq_zipWith_sum a b hlen (c + x * y)
    simp only [List.length_cons, List.range_succ_eq_map, List.foldl_cons, List.foldl_map,
      List.getD_cons_zero, List.getD_cons_succ, List.zipWith_cons_cons, List.sum_cons]
    rw [ih]
    ring

/-- C10: for every pair of integer lists of equal length,
dot_product_simple returns the sum of elementwise products and agrees with
dot_product_numpy. -/
theorem C10_dot_products_agree (a b : List ℤ) (h : a.length = b.length) :
    dot_product_simple a b = Except.ok ((List.zipWith (fun x y => x * y) a b).sum) ∧
    dot_product_simple a b = dot_product_numpy a b := by
  have hsimple : dot_product_simple a b
      = Except.ok ((List.zipWith (fun x y => x * y) a b).sum) := by
    rw [dot_product_simple, if_neg (by omega)]
    rw [dot_loop_eq_zipWith_sum a b h 0]
    rw [zero_add]
  refine ⟨hsimple, ?_⟩
  rw [hsimple, dot_product_numpy, if_neg (by omega)]

/-- C10 witness: both implementations give 32 on [1, 2, 3] and
[4, 5, 6]. -/
theorem C10_witness :
    dot_product_simple [1, 2, 3] [4, 5, 6] = Except.ok 32 ∧
    dot_product_numpy [1, 2, 3] [4, 5, 6] = Except.ok 32 := by
  obtain ⟨h1, h2⟩ := C10_dot_products_agree [1, 2, 3] [4, 5, 6] rfl
  have hsum : (List.zipWith (fun x y : ℤ => x * y) [1, 2, 3] [4, 5, 6]).sum = 32 := by
    decide
  rw [h1, hsum] at h2 ⊢
  exact ⟨rfl, h2.symm⟩

/-! ### Claims C2 and C6 -/
theorem subtitleOfSegment_none (i : ℕ) (seg : RawSegment) (h : ¬ seg.wellFormed) :
    subtitleOfSegment i seg = none := by
  rcases seg with ⟨sid, s, e, txt⟩
  cases s <;> cases e <;> cases txt <;>
    first
      | rfl
      | exact absurd (by simp [RawSegment.wellFormed]) h

theorem buildSubtitlesFrom_none : ∀ (segs : List RawSegment) (i : ℕ),
    (¬ ∀ s ∈ segs, s.wellFormed) → buildSubtitlesFrom i segs = none
  | [], _, h => absurd (by simp) h
  | seg :: rest, i, h => by
    by_cases hw : seg.wellFormed
    · have hrest : ¬ ∀ s ∈ rest, s.wellFormed := by
        intro hall
        exact h (fun s hs => (List.mem_cons.mp hs).elim (fun e => e ▸ hw) (hall s))
      rw [buildSubtitlesFrom, subtitleOfSegment_wellFormed i seg hw,
        buildSubtitlesFrom_none rest (i + 1) hrest]
      rfl
    · rw [buildSubtitlesFrom, subtitleOfSegment_none i seg hw]

theorem generate_srt_malformed (t : Transcription)
    (h : ¬ ∀ seg ∈ t.segments, seg.wellFormed) :
    generate_srt_from_transcription t = ("", [Msg.errorGeneratingSrt]) := by
  simp [generate_srt_from_transcription, buildSubtitles,
    buildSubtitlesFrom_none t.segments 0 h]

/-- C2 counterexample: when burning fails and the fallback copy of the
original video also fails, the run aborts ("Could not process video with
subtitles", early return at src/app.py line 362) instead of completing in
a degraded state — refuting the claim that a burning failure never fails
the pipeline. -/
theorem C2_counterexample :
    envBurnAndCopyFail.burnOk = false ∧
    (run envBurnAndCopyFail).1 = RunOutcome.abortedBurn ∧
    Msg.couldNotProcess ∈ (run envBurnAndCopyFail).2 := by
  refine ⟨rfl, by decide, by decide⟩

/-- C2 (amended): when burning fails and the fallback copy succeeds, the
run completes with the original video emitted unmodified as the output,
the generated subtitle content still available, and the degraded-mode
message shown. -/
theorem C2_burn_failure_degrades_when_copy_succeeds (env : RunEnv) (t : Transcription)
    (hext : (extract_audio_from_video env.video).1 = true)
    (htr : (transcribe_audio_whisper env.whisper).1 = some t)
    (hburn : env.burnOk = false) (hcopy : env.copyOk = true) :
    (run env).1 = RunOutcome.done t (generate_srt_from_transcription t).1
        OutputVideo.originalCopy true ∧
    Msg.videoSavedWithoutSubtitles ∈ (run env).2 := by
  constructor <;> simp [run, hext, htr, hburn, hcopy]

/-- C2 witness: a concrete run with burning failing and the copy
succeeding completes degraded with the original-copy output. -/
theorem C2_witness :
    (run envBurnFailCopyOk).1 = RunOutcome.done tinyT
        (generate_srt_from_transcription tinyT).1 OutputVideo.originalCopy true ∧
    Msg.videoSavedWithoutSubtitles ∈ (run envBurnFailCopyOk).2 :=
  C2_burn_failure_degrades_when_copy_succeeds envBurnFailCopyOk tinyT rfl rfl rfl rfl

/-- C6 counterexample: a run whose transcription contains a segment with
a missing end field reports the formatting error but still completes —
the outcome is done with empty subtitle content and a burned output, not
an abort, refuting the claim that a formatting failure aborts the run. -/
theorem C6_counterexample :
    (run envMalformed).1 = RunOutcome.done malformedT "" OutputVideo.burned false ∧
    Msg.errorGeneratingSrt ∈ (run envMalformed).2 ∧
    ¬ malformedSeg.wellFormed := by
  refine ⟨by decide, by decide, by decide⟩

/-- C6 (amended): a formatting failure (any malformed segment) is
reported as a formatting error message and yields empty subtitle content,
but the pipeline run is not aborted — it never stops at the extraction or
transcription stages and, when burning succeeds, completes normally with
empty subtitles. -/
theorem C6_formatting_error_reported_not_fatal (env : RunEnv) (t : Transcription)
    (hext : (extract_audio_from_video env.video).1 = true)
    (htr : (transcribe_audio_whisper env.whisper).1 = some t)
    (hbad : ¬ ∀ seg ∈ t.segments, seg.wellFormed) :
    (generate_srt_from_transcription t).1 = "" ∧
    Msg.errorGeneratingSrt ∈ (run env).2 ∧
    (run env).1 ≠ RunOutcome.abortedExtract ∧
    (run env).1 ≠ RunOutcome.abortedTranscribe ∧
    (env.burnOk = true → (run env).1 = RunOutcome.done t "" OutputVideo.burned false) := by
  have hgen := generate_srt_malformed t hbad
  refine ⟨by rw [hgen], ?_, ?_, ?_, ?_⟩
  · cases hb : env.burnOk <;> cases hc : env.copyOk <;>
      simp [run, hext, htr, hgen, hb, hc]
  · cases hb : env.burnOk <;> cases hc : env.copyOk <;>
      simp [run, hext, htr, hgen, hb, hc]
  · cases hb : env.burnOk <;> cases hc : env.copyOk <;>
      simp [run, hext, htr, hgen, hb, hc]
  · intro hb
    simp [run, hext, htr, hgen, hb]

/-- C6 witness: the malformed-segment run yields empty subtitle content
and shows the formatting error message. -/
theorem C6_witness :
    (generate_srt_from_transcription malformedT).1 = "" ∧
    Msg.errorGeneratingSrt ∈ (run envMalformed).2 := by
  have h := C6_formatting_error_reported_not_fatal envMalformed malformedT rfl rfl (by decide)
  exact ⟨h.1, h.2.1⟩

end CaptionGen
